import Mathlib

/-!
Verification development for the viam-chess module.

We give a shallow embedding of the algorithmic core of the repository:
the board-state differ (`checkPositionForMoves`), the per-square piece
color classifier (`estimatePieceColor`), the grab retry loop of
`movePiece`, the graveyard slot computation (`graveyardPosition`),
the point-cloud rectification (`filterAndTransformPointCloud`),
the persisted-state reader (`readState`), the `wipe` operation, and the
manual-move branch of the chess service `DoCommand`.

Machine floating point numbers are modelled by exact rationals, Go file
system effects by an explicit `Option String` (the contents of the state
file, or `none` when the file is absent), and the external chess rules
engine by an abstract list of legal moves.
-/

namespace ViamChess

/-- Square index as used by the chess library: `a1 = 0`, `b1 = 1`, ...,
`h1 = 7`, `a2 = 8`, ..., `h8 = 63`. -/
abbrev Square := Nat

/-! ## Board state differ (`checkPositionForMoves`, src/unnamed/part_002)

The logical position is modelled by the color code the rules engine
reports for each square (`int(fromState.Color())`: 0 empty, 1 white,
2 black), the observed snapshot by the color code parsed from each
square's object label (`oc := int(o.Geometry.Label()[3] - '0')`).
`Except.ok (some m)` models "move `m` was applied to the game and the
state was saved"; `Except.ok none` models the quiescent early return;
`Except.error e` models returning error `e` before any mutation. -/

/-- Accumulator of the per-square comparison loop: the `differnces` list
and the running `from`/`to` squares (`-1` models `chess.NoSquare`). -/
structure DiffAcc where
  diffs : List Square
  fromSq : Int
  toSq : Int
deriving Repr, DecidableEq

/-- Condition `int(fromState.Color()) != oc` of the comparison loop. -/
def mismatchB (logical observed : Square → Nat) (sq : Square) : Bool :=
  logical sq != observed sq

/-- Body of the loop `for sq := chess.A1; sq <= chess.H8; sq++`:
on a mismatch the square is appended to `differnces`, and `from`
(resp. `to`) is set when the observed code is zero (resp. positive). -/
def diffStep (logical observed : Square → Nat) (acc : DiffAcc) (sq : Square) : DiffAcc :=
  if mismatchB logical observed sq then
    { diffs := acc.diffs ++ [sq]
      fromSq := if observed sq = 0 then (sq : Int) else acc.fromSq
      toSq := if observed sq = 0 then acc.toSq
              else if 0 < observed sq then (sq : Int) else acc.toSq }
  else acc

/-- The complete scan of squares `a1 .. h8`, starting from an empty
difference list and `from = to = NoSquare`. -/
def scanBoard (logical observed : Square → Nat) : DiffAcc :=
  (List.range 64).foldl (diffStep logical observed) ⟨[], -1, -1⟩

/-- Go function `squaresSame`: lengths equal and every element of `a`
occurs in `b`. -/
def squaresSame (a b : List Square) : Bool :=
  if a.length ≠ b.length then false
  else a.all (fun sq => b.contains sq)

/-- Tail of `checkPositionForMoves` after the castle-footprint block:
the difference-count guard followed by the scan of the position's legal
moves for one whose origin and destination match `from`/`to`. -/
def checkAfterCastle (diffs : List Square) (f t : Int)
    (legal : List (Square × Square)) : Except String (Option (Square × Square)) :=
  if diffs.length ≠ 2 ∧ diffs.length ≠ 0 then
    Except.error "bad number of differnces"
  else
    match legal.find? (fun m => ((m.1 : Int) == f) && ((m.2 : Int) == t)) with
    | some m => Except.ok (some m)
    | none => Except.error "no valid moves"

/-- Embedding of `checkPositionForMoves`: collect mismatching squares;
zero mismatches return immediately; exactly four mismatches are tested
against the four castle footprints (each match synthesizes the king
move and clears the difference list); then the count guard and the
legal-move lookup run. -/
def checkPositionForMoves (logical observed : Square → Nat)
    (legal : List (Square × Square)) : Except String (Option (Square × Square)) :=
  let acc := scanBoard logical observed
  if acc.diffs.length = 0 then Except.ok none
  else if acc.diffs.length = 4 then
    if squaresSame acc.diffs [4, 5, 6, 7] then
      checkAfterCastle [] 4 6 legal
    else if squaresSame acc.diffs [4, 0, 2, 3] then
      checkAfterCastle [] 4 2 legal
    else if squaresSame acc.diffs [60, 61, 62, 63] then
      checkAfterCastle [] 60 62 legal
    else if squaresSame acc.diffs [60, 56, 58, 59] then
      checkAfterCastle [] 60 58 legal
    else
      checkAfterCastle acc.diffs acc.fromSq acc.toSq legal
  else
    checkAfterCastle acc.diffs acc.fromSq acc.toSq legal

/-- Squares at which the logical position and the snapshot disagree, in
board order. -/
def boardDiffs (logical observed : Square → Nat) : List Square :=
  (List.range 64).filter (mismatchB logical observed)

/-- Result of a sequence of conditional overwrites of an `Int` register:
the last element of `l` if `l` is nonempty, the initial value otherwise. -/
def lastUpd (l : List Square) (d : Int) : Int :=
  match l with
  | [] => d
  | s :: rest => lastUpd rest (s : Int)

theorem lastUpd_append (l₁ l₂ : List Square) (d : Int) :
    lastUpd (l₁ ++ l₂) d = lastUpd l₂ (lastUpd l₁ d) := by
  induction l₁ generalizing d with
  | nil => rfl
  | cons s rest ih => simp [lastUpd, ih]

/-- Closed form of the comparison loop: the accumulated differences are
the mismatching squares of the scanned range, and the `from`/`to`
registers hold the last mismatching square observed empty
(resp. observed occupied), if any. -/
theorem foldl_diffStep (logical observed : Square → Nat) (L : List Square) (acc : DiffAcc) :
    L.foldl (diffStep logical observed) acc =
      { diffs := acc.diffs ++ L.filter (mismatchB logical observed)
        fromSq := lastUpd
          (L.filter (fun sq => mismatchB logical observed sq && (observed sq == 0)))
          acc.fromSq
        toSq := lastUpd
          (L.filter (fun sq => mismatchB logical observed sq && (observed sq != 0)))
          acc.toSq } := by
  induction L generalizing acc with
  | nil => simp [lastUpd]
  | cons s rest ih =>
    rw [List.foldl_cons, ih]
    by_cases hm : mismatchB logical observed s
    · by_cases h0 : observed s = 0
      · simp [diffStep, hm, h0, List.filter_cons, lastUpd]
      · have hpos : 0 < observed s := Nat.pos_of_ne_zero h0
        simp [diffStep, hm, h0, hpos, List.filter_cons, lastUpd]
    · simp [diffStep, hm, List.filter_cons]

/-- Specialization to the full scan. -/
theorem scanBoard_eq (logical observed : Square → Nat) :
    scanBoard logical observed =
      { diffs := boardDiffs logical observed
        fromSq := lastUpd
          ((List.range 64).filter
            (fun sq => mismatchB logical observed sq && (observed sq == 0))) (-1)
        toSq := lastUpd
          ((List.range 64).filter
            (fun sq => mismatchB logical observed sq && (observed sq != 0))) (-1) } := by
  rw [scanBoard, foldl_diffStep]
  rfl

/-- Move predicate of the legal-move scan: both endpoints match. -/
theorem pred_eq_iff (c : Square × Square) (a b : Square) (f t : Int)
    (hf : f = (a : Int)) (ht : t = (b : Int)) :
    ((((c.1 : Int) == f) && ((c.2 : Int) == t)) = true) ↔ c = (a, b) := by
  subst hf ht
  constructor
  · intro hand
    have h1 : (c.1 : Int) = (a : Int) := by
      have := (Bool.and_eq_true _ _).mp hand |>.1
      exact_mod_cast of_decide_eq_true this
    have h2 : (c.2 : Int) = (b : Int) := by
      have := (Bool.and_eq_true _ _).mp hand |>.2
      exact_mod_cast of_decide_eq_true this
    have e1 : c.1 = a := by exact_mod_cast h1
    have e2 : c.2 = b := by exact_mod_cast h2
    exact Prod.ext e1 e2
  · intro he
    subst he
    simp

/-- A legal-move scan for a pair that occurs in the list finds exactly
that pair (earlier entries cannot satisfy the predicate without being
equal to it). -/
theorem find_pair_mem (l : List (Square × Square)) (a b : Square) (f t : Int)
    (hf : f = (a : Int)) (ht : t = (b : Int)) (h : (a, b) ∈ l) :
    l.find? (fun m => ((m.1 : Int) == f) && ((m.2 : Int) == t)) = some (a, b) := by
  induction l with
  | nil => cases h
  | cons c rest ih =>
    by_cases hc : c = (a, b)
    · subst hc
      rw [List.find?]
      rw [(pred_eq_iff _ a b f t hf ht).mpr rfl]
    · have hmem : (a, b) ∈ rest := by
        cases h with
        | head => exact absurd rfl hc
        | tail _ hr => exact hr
      rw [List.find?]
      have hpred : (((c.1 : Int) == f) && ((c.2 : Int) == t)) = false := by
        by_contra hne
        exact hc ((pred_eq_iff c a b f t hf ht).mp (Bool.of_not_eq_false hne))
      rw [hpred]
      exact ih hmem

/-- A legal-move scan for a pair that does not occur in the list fails. -/
theorem find_pair_not_mem (l : List (Square × Square)) (a b : Square) (f t : Int)
    (hf : f = (a : Int)) (ht : t = (b : Int)) (h : (a, b) ∉ l) :
    l.find? (fun m => ((m.1 : Int) == f) && ((m.2 : Int) == t)) = none := by
  induction l with
  | nil => rfl
  | cons c rest ih =>
    have hc : c ≠ (a, b) := fun he => h (he ▸ List.mem_cons_self c rest)
    have hmem : (a, b) ∉ rest := fun hr => h (List.mem_cons_of_mem c hr)
    rw [List.find?]
    have hpred : (((c.1 : Int) == f) && ((c.2 : Int) == t)) = false := by
      by_contra hne
      exact hc ((pred_eq_iff c a b f t hf ht).mp (Bool.of_not_eq_false hne))
    rw [hpred]
    exact ih hmem

/-- The conditional `from` overwrites only fire at mismatching squares
observed empty, so the scan's filter factors through `boardDiffs`. -/
theorem fromFilter_eq (logical observed : Square → Nat) :
    (List.range 64).filter
        (fun sq => mismatchB logical observed sq && (observed sq == 0))
      = (boardDiffs logical observed).filter (fun sq => observed sq == 0) := by
  rw [boardDiffs, List.filter_filter]
  congr 1
  funext sq
  exact Bool.and_comm _ _

/-- The conditional `to` overwrites only fire at mismatching squares
observed occupied, so the scan's filter factors through `boardDiffs`. -/
theorem toFilter_eq (logical observed : Square → Nat) :
    (List.range 64).filter
        (fun sq => mismatchB logical observed sq && (observed sq != 0))
      = (boardDiffs logical observed).filter (fun sq => observed sq != 0) := by
  rw [boardDiffs, List.filter_filter]
  congr 1
  funext sq
  exact Bool.and_comm _ _

/-- Final value of the `from` register after the full scan. -/
def scanFromSq (logical observed : Square → Nat) : Int :=
  lastUpd
    ((List.range 64).filter
      (fun sq => mismatchB logical observed sq && (observed sq == 0))) (-1)

/-- Final value of the `to` register after the full scan. -/
def scanToSq (logical observed : Square → Nat) : Int :=
  lastUpd
    ((List.range 64).filter
      (fun sq => mismatchB logical observed sq && (observed sq != 0))) (-1)

/-- Unfolding of the differ in terms of the mismatch list and the final
`from`/`to` registers. -/
theorem check_unfold (logical observed : Square → Nat) (legal : List (Square × Square)) :
    checkPositionForMoves logical observed legal =
      (if (boardDiffs logical observed).length = 0 then Except.ok none
       else if (boardDiffs logical observed).length = 4 then
         if squaresSame (boardDiffs logical observed) [4, 5, 6, 7] then
           checkAfterCastle [] 4 6 legal
         else if squaresSame (boardDiffs logical observed) [4, 0, 2, 3] then
           checkAfterCastle [] 4 2 legal
         else if squaresSame (boardDiffs logical observed) [60, 61, 62, 63] then
           checkAfterCastle [] 60 62 legal
         else if squaresSame (boardDiffs logical observed) [60, 56, 58, 59] then
           checkAfterCastle [] 60 58 legal
         else
           checkAfterCastle (boardDiffs logical observed)
             (scanFromSq logical observed) (scanToSq logical observed) legal
       else
         checkAfterCastle (boardDiffs logical observed)
           (scanFromSq logical observed) (scanToSq logical observed) legal) := by
  rw [checkPositionForMoves, scanBoard_eq]
  rfl

/-- C1. Whenever a board-diff comparison finds exactly two mismatching
squares, one observed empty (`a`) and one observed occupied (`b`), the
differ takes `from = a` and `to = b`, looks `(a, b)` up among the
position's legal moves and applies and saves exactly that move; when no
legal move matches, it returns the inconsistency error and applies
nothing. -/
theorem claim_C1 (logical observed : Square → Nat) (legal : List (Square × Square))
    (a b : Square)
    (hd : boardDiffs logical observed = [a, b] ∨ boardDiffs logical observed = [b, a])
    (ha : observed a = 0) (hb : observed b ≠ 0) :
    checkPositionForMoves logical observed legal =
      if (a, b) ∈ legal then Except.ok (some (a, b))
      else Except.error "no valid moves" := by
  have hba : a ≠ b := by
    intro he
    rw [he] at ha
    exact hb ha
  have hfa : decide (observed a = 0) = true := decide_eq_true ha
  have hfb : decide (observed b = 0) = false := decide_eq_false hb
  have hta : (observed a != 0) = false := by
    simp [bne, ha]
  have htb : (observed b != 0) = true := by
    simp [bne, hb]
  have hfrom : lastUpd
      ((List.range 64).filter
        (fun sq => mismatchB logical observed sq && (observed sq == 0))) (-1)
      = (a : Int) := by
    rw [fromFilter_eq]
    rcases hd with hd | hd <;>
      rw [hd] <;>
      simp [List.filter_cons, BEq.beq, hfa, hfb, lastUpd]
  have hto : lastUpd
      ((List.range 64).filter
        (fun sq => mismatchB logical observed sq && (observed sq != 0))) (-1)
      = (b : Int) := by
    rw [toFilter_eq]
    rcases hd with hd | hd <;>
      rw [hd] <;>
      simp [List.filter_cons, hta, htb, lastUpd]
  have hlen : (boardDiffs logical observed).length = 2 := by
    rcases hd with hd | hd <;> rw [hd] <;> rfl
  rw [checkPositionForMoves, scanBoard_eq]
  simp only [hfrom, hto]
  rw [if_neg (by rw [hlen]; omega), if_neg (by rw [hlen]; omega)]
  rw [checkAfterCastle, if_neg (by rw [hlen]; omega)]
  by_cases hmem : (a, b) ∈ legal
  · rw [find_pair_mem legal a b _ _ rfl rfl hmem, if_pos hmem]
  · rw [find_pair_not_mem legal a b _ _ rfl rfl hmem, if_neg hmem]

/-- Witness for C1: a pawn push seen as e2 vacated (square 12) and e4
newly occupied (square 28), with `(e2, e4)` legal, yields that move. -/
theorem claim_C1_witness :
    checkPositionForMoves (fun sq => if sq = 12 then 1 else 0)
        (fun sq => if sq = 28 then 1 else 0) [(12, 28)]
      = Except.ok (some (12, 28)) := by
  rw [claim_C1 (fun sq => if sq = 12 then 1 else 0)
    (fun sq => if sq = 28 then 1 else 0) [(12, 28)] 12 28
    (Or.inl (by decide)) (by decide) (by decide)]
  simp

/-- The four canonical castle footprints of the differ, each as its
mismatch set in board order, paired with the move the differ
synthesizes for it: white king side `{e1,f1,g1,h1} ↦ (e1,g1)`, white
queen side `{a1,c1,d1,e1} ↦ (e1,c1)`, and the rank-8 mirrors. -/
def castleFootprints : List (List Square × (Square × Square)) :=
  [([4, 5, 6, 7], (4, 6)),
   ([0, 2, 3, 4], (4, 2)),
   ([60, 61, 62, 63], (60, 62)),
   ([56, 58, 59, 60], (60, 58))]

/-- C3. When exactly four squares mismatch and they form one of the four
canonical castle footprints, the differ discards the scanned `from`/`to`
registers, synthesizes the corresponding king move directly, and (the
move being legal in the position) applies exactly that move. -/
theorem claim_C3 (logical observed : Square → Nat) (legal : List (Square × Square))
    (fp : List Square) (mv : Square × Square)
    (hfp : (fp, mv) ∈ castleFootprints)
    (hd : boardDiffs logical observed = fp)
    (hm : mv ∈ legal) :
    checkPositionForMoves logical observed legal = Except.ok (some mv) := by
  rw [check_unfold]
  simp only [castleFootprints, List.mem_cons, List.not_mem_nil, or_false,
    Prod.mk.injEq] at hfp
  rcases hfp with ⟨h1, h2⟩ | ⟨h1, h2⟩ | ⟨h1, h2⟩ | ⟨h1, h2⟩ <;> subst h1 <;> subst h2 <;>
    rw [hd]
  · rw [if_neg (by decide), if_pos (by decide), if_pos (by decide)]
    rw [checkAfterCastle, if_neg (by decide)]
    rw [find_pair_mem legal 4 6 4 6 (by decide) (by decide) hm]
  · rw [if_neg (by decide), if_pos (by decide), if_neg (by decide), if_pos (by decide)]
    rw [checkAfterCastle, if_neg (by decide)]
    rw [find_pair_mem legal 4 2 4 2 (by decide) (by decide) hm]
  · rw [if_neg (by decide), if_pos (by decide), if_neg (by decide), if_neg (by decide),
      if_pos (by decide)]
    rw [checkAfterCastle, if_neg (by decide)]
    rw [find_pair_mem legal 60 62 60 62 (by decide) (by decide) hm]
  · rw [if_neg (by decide), if_pos (by decide), if_neg (by decide), if_neg (by decide),
      if_neg (by decide), if_pos (by decide)]
    rw [checkAfterCastle, if_neg (by decide)]
    rw [find_pair_mem legal 60 58 60 58 (by decide) (by decide) hm]

/-- Witness for C3: the white king-side footprint `{e1,f1,g1,h1}`
(squares 4,5,6,7) with `(e1,g1)` legal yields the synthesized castle
move `(e1,g1) = (4,6)`. -/
theorem claim_C3_witness :
    checkPositionForMoves
        (fun sq => if sq = 4 ∨ sq = 7 then 1 else 0)
        (fun sq => if sq = 5 ∨ sq = 6 then 1 else 0) [(4, 6)]
      = Except.ok (some (4, 6)) :=
  claim_C3 (fun sq => if sq = 4 ∨ sq = 7 then 1 else 0)
    (fun sq => if sq = 5 ∨ sq = 6 then 1 else 0) [(4, 6)]
    [4, 5, 6, 7] (4, 6) (by decide) (by decide) (by decide)

/-- C4. A mismatch count other than 0, 2, or 4-matching-a-castle
footprint makes the operation return the inconsistency error before any
move is applied or saved; zero mismatches return success without
applying or saving anything. -/
theorem claim_C4 (logical observed : Square → Nat) (legal : List (Square × Square)) :
    (boardDiffs logical observed = [] →
      checkPositionForMoves logical observed legal = Except.ok none)
    ∧ ((boardDiffs logical observed).length ∉ ([0, 2, 4] : List Nat) →
      checkPositionForMoves logical observed legal
        = Except.error "bad number of differnces")
    ∧ ((boardDiffs logical observed).length = 4 →
      squaresSame (boardDiffs logical observed) [4, 5, 6, 7] = false →
      squaresSame (boardDiffs logical observed) [4, 0, 2, 3] = false →
      squaresSame (boardDiffs logical observed) [60, 61, 62, 63] = false →
      squaresSame (boardDiffs logical observed) [60, 56, 58, 59] = false →
      checkPositionForMoves logical observed legal
        = Except.error "bad number of differnces") := by
  refine ⟨?_, ?_, ?_⟩
  · intro h
    rw [check_unfold, h]
    simp
  · intro h
    simp only [List.mem_cons, List.not_mem_nil, or_false, not_or] at h
    obtain ⟨h0, h2, h4⟩ := h
    rw [check_unfold, if_neg h0, if_neg h4]
    rw [checkAfterCastle, if_pos ⟨h2, h0⟩]
  · intro hlen hs1 hs2 hs3 hs4
    rw [check_unfold, if_neg (by simp [hlen]), if_pos hlen,
      if_neg (by simp [hs1]), if_neg (by simp [hs2]),
      if_neg (by simp [hs3]), if_neg (by simp [hs4])]
    rw [checkAfterCastle, if_pos ⟨by simp [hlen], by simp [hlen]⟩]

/-- Witness for C4: a single mismatching square (count 1) gives the
inconsistency error. -/
theorem claim_C4_witness :
    checkPositionForMoves (fun sq => if sq = 0 then 1 else 0) (fun _ => 0) []
      = Except.error "bad number of differnces" :=
  (claim_C4 (fun sq => if sq = 0 then 1 else 0) (fun _ => 0) []).2.1 (by decide)

/-! ## Piece color classifier (`estimatePieceColor`, src/unnamed/part_000)

A point cloud is a list of points, each with a height `z` and optional
RGB255 color data (`none` models both `d == nil` and `!d.HasColor()`).
Floating point is modelled by exact rationals. -/

/-- Constant `minPieceSize = 20.0`, the piece height threshold. -/
def minPieceSize : ℚ := 20

/-- One point of a per-square point cloud. -/
structure PCPoint where
  z : ℚ
  rgb : Option (ℚ × ℚ × ℚ)
deriving Repr, DecidableEq

/-- The `MaxZ` of the cloud metadata: the maximum `z` over all points
(colored or not). The empty-cloud value is irrelevant downstream. -/
def pcMaxZ (pc : List PCPoint) : ℚ :=
  match pc with
  | [] => 0
  | p :: rest => rest.foldl (fun m q => max m q.z) p.z

/-- Accumulator of the color-averaging iteration. -/
structure ColorAcc where
  totalR : ℚ
  totalG : ℚ
  totalB : ℚ
  count : Nat
deriving Repr, DecidableEq

/-- Body of `pc.Iterate`: accumulate R/G/B and the count over points
below `minZ` that carry color data. -/
def colorStep (minZ : ℚ) (acc : ColorAcc) (p : PCPoint) : ColorAcc :=
  if p.z < minZ then
    match p.rgb with
    | some (r, g, b) =>
      ⟨acc.totalR + r, acc.totalG + g, acc.totalB + b, acc.count + 1⟩
    | none => acc
  else acc

/-- Embedding of `estimatePieceColor`: 0 blank, 1 white, 2 black. -/
def estimatePieceColor (pc : List PCPoint) : Nat :=
  let minZ := pcMaxZ pc - minPieceSize
  let acc := pc.foldl (colorStep minZ) ⟨0, 0, 0, 0⟩
  if acc.count ≤ 10 then 0
  else
    let avgR := acc.totalR / (acc.count : ℚ)
    let avgG := acc.totalG / (acc.count : ℚ)
    let avgB := acc.totalB / (acc.count : ℚ)
    let brightness := (avgR + avgG + avgB) / 3
    if 128 < brightness then 1 else 2

/-- A point qualifies when it lies below the height cut and has color. -/
def qualifiesB (minZ : ℚ) (p : PCPoint) : Bool :=
  decide (p.z < minZ) && p.rgb.isSome

/-- The qualifying points of a cloud, relative to its own `MaxZ`. -/
def qualifyingPoints (pc : List PCPoint) : List PCPoint :=
  pc.filter (qualifiesB (pcMaxZ pc - minPieceSize))

/-- Number of qualifying points of a cloud. -/
def qualifyingCount (pc : List PCPoint) : Nat :=
  (qualifyingPoints pc).length

/-- Red component of a point's color data (0 when absent). -/
def rgbR (p : PCPoint) : ℚ := (p.rgb.getD (0, 0, 0)).1

/-- Green component of a point's color data (0 when absent). -/
def rgbG (p : PCPoint) : ℚ := (p.rgb.getD (0, 0, 0)).2.1

/-- Blue component of a point's color data (0 when absent). -/
def rgbB (p : PCPoint) : ℚ := (p.rgb.getD (0, 0, 0)).2.2

/-- Average brightness `(avgR + avgG + avgB) / 3` over the qualifying
points of a cloud. -/
def avgBrightness (pc : List PCPoint) : ℚ :=
  let q := qualifyingPoints pc
  let n : ℚ := (q.length : ℚ)
  (((q.map rgbR).sum / n) + ((q.map rgbG).sum / n) + ((q.map rgbB).sum / n)) / 3

/-- Closed form of the color-accumulating iteration: componentwise sums
and the count of qualifying points. -/
theorem foldl_colorStep (minZ : ℚ) (L : List PCPoint) (acc : ColorAcc) :
    L.foldl (colorStep minZ) acc =
      ⟨acc.totalR + ((L.filter (qualifiesB minZ)).map rgbR).sum,
       acc.totalG + ((L.filter (qualifiesB minZ)).map rgbG).sum,
       acc.totalB + ((L.filter (qualifiesB minZ)).map rgbB).sum,
       acc.count + (L.filter (qualifiesB minZ)).length⟩ := by
  induction L generalizing acc with
  | nil => simp
  | cons p rest ih =>
    rw [List.foldl_cons, ih]
    rcases hc : p.rgb with _ | ⟨r, g, b⟩
    · have hq : qualifiesB minZ p = false := by
        simp [qualifiesB, hc]
      by_cases hz : p.z < minZ
      · simp [colorStep, hz, hc, List.filter_cons, hq]
      · simp [colorStep, hz, List.filter_cons, hq]
    · by_cases hz : p.z < minZ
      · have hq : qualifiesB minZ p = true := by
          simp [qualifiesB, hc, hz]
        simp [colorStep, hz, hc, List.filter_cons, hq, rgbR, rgbG, rgbB, add_assoc,
          add_comm, add_left_comm]
      · have hq : qualifiesB minZ p = false := by
          simp [qualifiesB, hz]
        simp [colorStep, hz, List.filter_cons, hq]

/-- The classifier in terms of the qualifying-point statistics. -/
theorem estimatePieceColor_eq (pc : List PCPoint) :
    estimatePieceColor pc =
      if qualifyingCount pc ≤ 10 then 0
      else if 128 < avgBrightness pc then 1 else 2 := by
  rw [estimatePieceColor, foldl_colorStep]
  simp only [zero_add, qualifyingCount, qualifyingPoints, avgBrightness]

/-- C2 (amended). The classifier accumulates R/G/B over points that have
color data and lie strictly below `MaxZ - 20`; with 10 or fewer such
qualifying points (the code tests `count <= 10`, not `count < 10`) it
classifies empty, and with 11 or more it classifies white when the
average brightness exceeds 128, else black. -/
theorem claim_C2 (pc : List PCPoint) :
    (qualifyingCount pc ≤ 10 → estimatePieceColor pc = 0)
    ∧ (10 < qualifyingCount pc →
        estimatePieceColor pc = if 128 < avgBrightness pc then 1 else 2) := by
  constructor
  · intro h
    rw [estimatePieceColor_eq, if_pos h]
  · intro h
    rw [estimatePieceColor_eq, if_neg (by omega)]

/-- A colorless point at the top of the square. -/
def topPoint : PCPoint := ⟨100, none⟩

/-- A bright colored point on the board plane. -/
def whitePoint : PCPoint := ⟨0, some (255, 255, 255)⟩

/-- A cloud with exactly 10 qualifying bright points below the height
cut (plus the colorless top point that fixes `MaxZ = 100`). -/
def tenPointCloud : List PCPoint :=
  [topPoint, whitePoint, whitePoint, whitePoint, whitePoint, whitePoint,
   whitePoint, whitePoint, whitePoint, whitePoint, whitePoint]

theorem maxZ_tenPointCloud : pcMaxZ tenPointCloud = 100 := by
  norm_num [pcMaxZ, tenPointCloud, topPoint, whitePoint, List.foldl, max_def]

theorem qualifyingPoints_tenPointCloud :
    qualifyingPoints tenPointCloud =
      [whitePoint, whitePoint, whitePoint, whitePoint, whitePoint,
       whitePoint, whitePoint, whitePoint, whitePoint, whitePoint] := by
  rw [qualifyingPoints, maxZ_tenPointCloud]
  norm_num [tenPointCloud, topPoint, whitePoint, qualifiesB, minPieceSize,
    List.filter]

theorem qualifyingCount_tenPointCloud : qualifyingCount tenPointCloud = 10 := by
  rw [qualifyingCount, qualifyingPoints_tenPointCloud]
  rfl

theorem avgBrightness_tenPointCloud : avgBrightness tenPointCloud = 255 := by
  rw [avgBrightness, qualifyingPoints_tenPointCloud]
  norm_num [whitePoint, rgbR, rgbG, rgbB, List.map, List.sum_cons]

/-- Counterexample to C2 as stated: this cloud has exactly 10 qualifying
points — not fewer than 10 — and average brightness 255 > 128, so the
claim predicts white (1), yet the code's `count <= 10` guard classifies
it empty (0). -/
theorem claim_C2_counterexample :
    ¬ (qualifyingCount tenPointCloud < 10)
    ∧ 128 < avgBrightness tenPointCloud
    ∧ estimatePieceColor tenPointCloud = 0 := by
  refine ⟨by rw [qualifyingCount_tenPointCloud]; omega,
    by rw [avgBrightness_tenPointCloud]; norm_num, ?_⟩
  rw [estimatePieceColor_eq, if_pos (by rw [qualifyingCount_tenPointCloud])]

/-- Witness for C2 (amended): the 10-qualifying-point cloud is
classified empty. -/
theorem claim_C2_witness : estimatePieceColor tenPointCloud = 0 :=
  (claim_C2 tenPointCloud).1 (by rw [qualifyingCount_tenPointCloud])

/-! ## Grab retry loop of `movePiece` (src/unnamed/part_002)

The descent/grab/retry loop of `movePiece`, abstracted over the
actuator: `grabs n` is the outcome `myGrab` reports on the `n`-th
attempt. `useZ` starts at the target square's piece-top height; each
failed grab lowers it by 10, and the loop gives up once the next
descent height would drop below 12. The function is defined by
well-founded recursion on `⌈useZ⌉`, which is the termination argument
for the loop. -/

/-- Embedding of the `for { ... }` grab loop in `movePiece`: attempt a
grab at `useZ`; on success return, otherwise step down 10 units and
give up below the 12-unit floor. -/
def movePieceGrabLoop (grabs : Nat → Bool) (n : Nat) (useZ : ℚ) : Except String Nat :=
  if grabs n then Except.ok n
  else if useZ - 10 < 12 then Except.error "couldn't grab, and scared to go lower"
  else movePieceGrabLoop grabs (n + 1) (useZ - 10)
termination_by ⌈useZ⌉.toNat
decreasing_by
  rename_i hfloor
  have h12 : (12 : ℚ) ≤ useZ - 10 := le_of_not_lt hfloor
  have hc : (12 : ℤ) ≤ ⌈useZ - 10⌉ := by
    exact_mod_cast h12.trans (Int.le_ceil _)
  have hsub : ⌈useZ - 10⌉ = ⌈useZ⌉ - 10 := by
    rw [show (10 : ℚ) = ((10 : ℤ) : ℚ) by norm_num, Int.ceil_sub_int]
  omega

/-- C5. The grab retry loop terminates on every input: with an actuator
that never reports a successful grab it always returns the failure
error (after finitely many retries, each 10 units lower, stopping at
the 12-unit floor) instead of looping forever. -/
theorem claim_C5 (n : Nat) (useZ : ℚ) :
    movePieceGrabLoop (fun _ => false) n useZ
      = Except.error "couldn't grab, and scared to go lower" := by
  rw [movePieceGrabLoop]
  simp only [Bool.false_eq_true, if_false]
  split
  · rfl
  · exact claim_C5 (n + 1) (useZ - 10)
termination_by ⌈useZ⌉.toNat
decreasing_by
  rename_i hfloor
  have h12 : (12 : ℚ) ≤ useZ - 10 := le_of_not_lt hfloor
  have hc : (12 : ℤ) ≤ ⌈useZ - 10⌉ := by
    exact_mod_cast h12.trans (Int.le_ceil _)
  have hsub : ⌈useZ - 10⌉ = ⌈useZ⌉ - 10 := by
    rw [show (10 : ℚ) = ((10 : ℤ) : ℚ) by norm_num, Int.ceil_sub_int]
  omega

/-! ## Graveyard slot computation (`graveyardPosition`, src/unnamed/part_002)

The vision snapshot is abstracted to the 2D center the snapshot reports
for a named square object (`none` when no object carries that label). -/

/-- Embedding of `graveyardPosition`: rank `8 - pos % 8` selects the
board square `a<rank>` used as anchor, and the column extent
`1 + pos / 8` offsets the anchor's Y by `extent * 80`; Z is fixed
at 60. -/
def graveyardPosition (objCenter : String → Option (ℚ × ℚ)) (pos : Nat) :
    Except String (ℚ × ℚ × ℚ) :=
  let f := 8 - pos % 8
  let ex := 1 + pos / 8
  match objCenter ("a" ++ toString f) with
  | none => Except.error ("why no object for a" ++ toString f)
  | some c => Except.ok (c.1, c.2 - ((ex * 80 : Nat) : ℚ), 60)

/-- C6. The graveyard slot is a deterministic function of the captured
piece index alone: index `pos` anchors at rank `8 - pos % 8` (square
`a<rank>`) with column extent `1 + pos / 8`, and the same index always
produces the same slot (the computation reads nothing but `pos` and the
snapshot's anchor center). -/
theorem claim_C6 (objCenter : String → Option (ℚ × ℚ)) (pos : Nat) (cx cy : ℚ)
    (h : objCenter ("a" ++ toString (8 - pos % 8)) = some (cx, cy)) :
    graveyardPosition objCenter pos
      = Except.ok (cx, cy - (((1 + pos / 8) * 80 : Nat) : ℚ), 60) := by
  rw [graveyardPosition]
  simp [h]

/-- Witness for C6: index 0 anchors at `a8` with extent 1, giving the
anchor center shifted 80 units in Y. -/
theorem claim_C6_witness :
    graveyardPosition (fun s => if s = "a8" then some (3, 4) else none) 0
      = Except.ok (3, 4 - ((80 : Nat) : ℚ), 60) :=
  claim_C6 (fun s => if s = "a8" then some (3, 4) else none) 0 3 4 (by rfl)

/-! ## Persisted state (`readState` and `wipe`, src/unnamed/part_002)

The state file is modelled by `Option String`: `none` when the file
does not exist, `some data` for its contents. JSON unmarshalling and
FEN decoding are external collaborators, passed as abstract partial
parsers. A game is represented by its FEN string. -/

/-- Persisted game state: the FEN of the logical position and the
graveyard sequence of captured piece codes. -/
structure GameState where
  fen : String
  graveyard : List Int
deriving Repr, DecidableEq

/-- Modelled from the spec: `chess.NewGame()` of the external rules
engine produces a fresh game in the standard chess starting position. -/
def standardStartFEN : String :=
  "rnbqkbnr/pppppppp/8/8/8/8/PPPPPPPP/RNBQKBNR w KQkq - 0 1"

/-- Embedding of `readState`: a missing file yields a fresh game with
an empty graveyard; otherwise the contents are unmarshalled to
`{fen, graveyard}` and the FEN is decoded, each failure producing the
corresponding error. -/
def readState (file : Option String)
    (parseSaved : String → Option (String × List Int))
    (parseFEN : String → Option String) : Except String GameState :=
  match file with
  | none => Except.ok ⟨standardStartFEN, []⟩
  | some data =>
    match parseSaved data with
    | none => Except.error "cannot unmarshal json"
    | some ss =>
      match parseFEN ss.1 with
      | none => Except.error ("invalid fen from " ++ ss.1)
      | some f => Except.ok ⟨f, ss.2⟩

/-- C8. Reading the persisted state when the state file does not exist
succeeds and returns a fresh game in the standard starting position
with an empty graveyard, whatever the parsers would do. -/
theorem claim_C8 (parseSaved : String → Option (String × List Int))
    (parseFEN : String → Option String) :
    readState none parseSaved parseFEN = Except.ok ⟨standardStartFEN, []⟩ := by
  rfl

/-- Semantics of `os.Remove`: deleting an existing file succeeds and
leaves no file; deleting a missing file returns the ENOENT error. -/
def osRemove (fs : Option String) : Except String (Option String) :=
  match fs with
  | some _ => Except.ok none
  | none => Except.error "no such file or directory"

/-- Embedding of `wipe`: it returns `os.Remove(s.fenFile)` unchanged,
with no missing-file check. -/
def wipe (fs : Option String) : Except String (Option String) :=
  osRemove fs

/-- Counterexample to C9 as stated: after a successful wipe the file is
absent, and a second wipe returns the ENOENT error instead of treating
the missing file as already clean. -/
theorem claim_C9_counterexample :
    wipe (some "state") = Except.ok none
    ∧ wipe none = Except.error "no such file or directory" := by
  exact ⟨rfl, rfl⟩

/-- C9 (amended). The wipe operation is not idempotent at the error
level: it propagates `os.Remove` unchanged, so it succeeds exactly when
the state file exists and returns the file-not-found error whenever the
file is already absent — in particular on a second invocation right
after a successful wipe. -/
theorem claim_C9 (fs : Option String) :
    wipe fs = match fs with
      | some _ => Except.ok none
      | none => Except.error "no such file or directory" := by
  cases fs <;> rfl

/-! ## Manual move command (`DoCommand` move branch, src/unnamed/part_002)

For a decoded command with non-empty `From` and `To`, the branch runs
the pick-and-place sequence once per loop iteration `x ∈ 0..N-1`,
swapping the squares on odd `x`. We model the branch by the sequence of
`(from, to)` pairs handed to `movePiece` on its success path. -/

/-- Decoded `MoveCmd` of the chess service. -/
structure MoveCmd where
  From : String
  To : String
  N : Int
deriving Repr, DecidableEq

/-- Embedding of the `cmd.Move` branch of `DoCommand`: with non-empty
`From`/`To` it iterates `for x := range cmd.Move.N`, picking from
`From` to `To` and swapping the two on odd `x`; otherwise (both fields
are not non-empty) this branch does not apply. -/
def doCommandMove (cmd : MoveCmd) : Except String (List (String × String)) :=
  if cmd.To ≠ "" ∧ cmd.From ≠ "" then
    Except.ok ((List.range cmd.N.toNat).map (fun x =>
      if x % 2 = 1 then (cmd.To, cmd.From) else (cmd.From, cmd.To)))
  else Except.error "bad cmd"

/-- C10. With non-empty `from`/`to` the pick-and-place sequence runs
exactly `N` times: with `N ≤ 0` (0 or omitted) no motion is performed
and the command succeeds, and iteration `x` moves from `from` to `to`,
with the two squares swapped whenever `x % 2 = 1`. -/
theorem claim_C10 (cmd : MoveCmd) (hf : cmd.From ≠ "") (ht : cmd.To ≠ "") :
    ∃ moves : List (String × String),
      doCommandMove cmd = Except.ok moves
      ∧ moves.length = cmd.N.toNat
      ∧ (cmd.N ≤ 0 → moves = [])
      ∧ ∀ x : Nat, ∀ hx : x < moves.length,
          moves.get ⟨x, hx⟩
            = if x % 2 = 1 then (cmd.To, cmd.From) else (cmd.From, cmd.To) := by
  refine ⟨(List.range cmd.N.toNat).map (fun x =>
    if x % 2 = 1 then (cmd.To, cmd.From) else (cmd.From, cmd.To)), ?_, ?_, ?_, ?_⟩
  · rw [doCommandMove, if_pos ⟨ht, hf⟩]
  · simp
  · intro hn
    have : cmd.N.toNat = 0 := Int.toNat_of_nonpos hn
    simp [this]
  · intro x hx
    simp only [List.length_map, List.length_range] at hx
    simp [List.get_map, List.get_range]

/-- Witness for C10: repeat count 3 on `(e2, e4)` yields a successful
three-iteration sequence, swapped on the odd iteration. -/
theorem claim_C10_witness :
    ∃ moves : List (String × String),
      doCommandMove ⟨"e2", "e4", 3⟩ = Except.ok moves
      ∧ moves.length = (3 : Int).toNat
      ∧ ((3 : Int) ≤ 0 → moves = [])
      ∧ ∀ x : Nat, ∀ hx : x < moves.length,
          moves.get ⟨x, hx⟩ = if x % 2 = 1 then ("e4", "e2") else ("e2", "e4") :=
  claim_C10 ⟨"e2", "e4", 3⟩ (by decide) (by decide)

/-! ## Point-cloud rectification (src/board_finder_cam.go)

Geometry utilities and `filterAndTransformPointCloud`, over exact
rationals. The camera intrinsics model `PinholeCameraIntrinsics`
projection `imgX = fx*X/Z + ppx`, `imgY = fy*Y/Z + ppy`. -/

/-- An image-space 2D point. -/
structure Point2 where
  x : ℚ
  y : ℚ
deriving Repr, DecidableEq

/-- A 3D point of a point cloud. -/
structure Point3 where
  x : ℚ
  y : ℚ
  z : ℚ
deriving Repr, DecidableEq

/-- Pinhole camera intrinsic parameters. -/
structure Intrinsics where
  fx : ℚ
  fy : ℚ
  ppx : ℚ
  ppy : ℚ
deriving Repr, DecidableEq

/-- Projection `PointToPixel` of the pinhole model:
`imgX = fx*X/Z + ppx`, `imgY = fy*Y/Z + ppy`. -/
def pointToPixel (ip : Intrinsics) (x y z : ℚ) : ℚ × ℚ :=
  (ip.fx * x / z + ip.ppx, ip.fy * y / z + ip.ppy)

/-- Embedding of `pointInPolygon`: even-odd ray casting. Index `j`
starts at the last vertex and then trails `i` by one, so the edge list
pairs each vertex with its predecessor. -/
def pointInPolygon (x y : ℚ) (polygon : List Point2) : Bool :=
  let preds := match polygon.getLast? with
    | none => []
    | some pl => pl :: polygon.dropLast
  (polygon.zip preds).foldl (fun inside e =>
    if (decide (e.1.y > y) != decide (e.2.y > y))
        && decide (x < (e.2.x - e.1.x) * (y - e.1.y) / (e.2.y - e.1.y) + e.1.x)
    then !inside else inside) false

/-- Helper `absFloat`. -/
def absFloat (x : ℚ) : ℚ := if x < 0 then -x else x

/-- Pivot selection of `solveLinearSystem`: the row at or below `col`
whose entry in column `col` has the largest magnitude (first such row,
scanning downward). -/
def findPivot (A : Fin 8 → Fin 8 → ℚ) (col : Fin 8) : Fin 8 :=
  (List.finRange 8).foldl (fun maxRow row =>
    if col < row ∧ absFloat (A maxRow col) < absFloat (A row col) then row
    else maxRow) col

/-- Row swap of Gaussian elimination. -/
def swapIdx (i j r : Fin 8) : Fin 8 :=
  if r = i then j else if r = j then i else r

/-- One elimination of a row below the pivot: subtract
`factor = A[row][col] / A[col][col]` times the pivot row (skipped when
the pivot entry is exactly zero, as in the code). -/
def elimStep (col : Fin 8) (st : (Fin 8 → Fin 8 → ℚ) × (Fin 8 → ℚ)) (row : Fin 8) :
    (Fin 8 → Fin 8 → ℚ) × (Fin 8 → ℚ) :=
  if col < row then
    if st.1 col col = 0 then st
    else
      let factor := st.1 row col / st.1 col col
      (fun r c => if r = row ∧ col ≤ c then st.1 r c - factor * st.1 col c
                  else st.1 r c,
       fun r => if r = row then st.2 r - factor * st.2 col else st.2 r)
  else st

/-- One column of forward elimination: partial pivoting, row swap, then
elimination below the pivot. -/
def forwardCol (st : (Fin 8 → Fin 8 → ℚ) × (Fin 8 → ℚ)) (col : Fin 8) :
    (Fin 8 → Fin 8 → ℚ) × (Fin 8 → ℚ) :=
  let maxRow := findPivot st.1 col
  let A1 := fun r => st.1 (swapIdx col maxRow r)
  let b1 := fun r => st.2 (swapIdx col maxRow r)
  (List.finRange 8).foldl (elimStep col) (A1, b1)

/-- Back substitution: from the last row upward, subtract the known
terms and divide by the diagonal entry when it is nonzero. The solution
vector starts zero-initialized as in Go. -/
def backSub (A : Fin 8 → Fin 8 → ℚ) (b : Fin 8 → ℚ) : Fin 8 → ℚ :=
  (List.finRange 8).reverse.foldl (fun x i =>
    let xi := b i - (List.finRange 8).foldl
      (fun s j => if i < j then s + A i j * x j else s) 0
    let xi := if A i i ≠ 0 then xi / A i i else xi
    fun r => if r = i then xi else x r) (fun _ => 0)

/-- Embedding of `solveLinearSystem`: Gaussian elimination with partial
pivoting followed by back substitution. -/
def solveLinearSystem (A : Fin 8 → Fin 8 → ℚ) (b : Fin 8 → ℚ) : Fin 8 → ℚ :=
  let st := (List.finRange 8).foldl forwardCol (A, b)
  backSub st.1 st.2

/-- Embedding of `computePerspectiveMatrix`: rows `2i`/`2i+1` of the
8×8 system encode the `x`/`y` correspondence of point pair `i`, the
eight solved parameters are completed with bottom-right entry 1. -/
def computePerspectiveMatrix (src dst : List Point2) : Fin 9 → ℚ :=
  let A : Fin 8 → Fin 8 → ℚ := fun r c =>
    let s := src.getD ((r : Nat) / 2) ⟨0, 0⟩
    let d := dst.getD ((r : Nat) / 2) ⟨0, 0⟩
    if (r : Nat) % 2 = 0 then
      match (c : Nat) with
      | 0 => s.x
      | 1 => s.y
      | 2 => 1
      | 3 => 0
      | 4 => 0
      | 5 => 0
      | 6 => -d.x * s.x
      | _ => -d.x * s.y
    else
      match (c : Nat) with
      | 0 => 0
      | 1 => 0
      | 2 => 0
      | 3 => s.x
      | 4 => s.y
      | 5 => 1
      | 6 => -d.y * s.x
      | _ => -d.y * s.y
  let b : Fin 8 → ℚ := fun r =>
    let d := dst.getD ((r : Nat) / 2) ⟨0, 0⟩
    if (r : Nat) % 2 = 0 then d.x else d.y
  let h := solveLinearSystem A b
  fun k => if hk : (k : Nat) < 8 then h ⟨k, hk⟩ else 1

/-- Embedding of `applyPerspective`: projective divide, with a
homogeneous weight of exactly zero clamped to 1. -/
def applyPerspective (m : Fin 9 → ℚ) (x y : ℚ) : ℚ × ℚ :=
  let w := m 6 * x + m 7 * y + m 8
  let w := if w = 0 then 1 else w
  ((m 0 * x + m 1 * y + m 2) / w, (m 3 * x + m 4 * y + m 5) / w)

/-- Destination corners of the `outputSize × outputSize` square. -/
def dstPtsFor (outputSize : Nat) : List Point2 :=
  [⟨0, 0⟩, ⟨(outputSize : ℚ), 0⟩,
   ⟨(outputSize : ℚ), (outputSize : ℚ)⟩, ⟨0, (outputSize : ℚ)⟩]

/-- The forward homography computed by `filterAndTransformPointCloud`
(source board corners to output square). -/
def boardMatrix (corners : List Point2) (outputSize : Nat) : Fin 9 → ℚ :=
  computePerspectiveMatrix corners (dstPtsFor outputSize)

/-- The per-point un-projection of `filterAndTransformPointCloud`:
`X = (imgX - ppx) * Z / fx`, `Y = (imgY - ppy) * Z / fy` against the
output image's central principal point; `Z` is carried over. -/
def transformPoint (matrix : Fin 9 → ℚ) (outputSize : Nat) (ip : Intrinsics)
    (p : Point3) : Point3 :=
  let img := pointToPixel ip p.x p.y p.z
  let newImg := applyPerspective matrix img.1 img.2
  ⟨(newImg.1 - (outputSize : ℚ) / 2) * p.z / ip.fx,
   (newImg.2 - (outputSize : ℚ) / 2) * p.z / ip.fy,
   p.z⟩

/-- Embedding of `filterAndTransformPointCloud`: project each point
through the source intrinsics, keep it only when the projection falls
inside the 4-corner board polygon, and re-seat it so the virtual camera
projects it onto its homography-transformed 2D position. -/
def filterAndTransformPointCloud (pc : List Point3) (corners : List Point2)
    (outputSize : Nat) (ip : Intrinsics) : List Point3 :=
  let polygon := corners
  let matrix := boardMatrix corners outputSize
  let newPpx : ℚ := (outputSize : ℚ) / 2
  let newPpy : ℚ := (outputSize : ℚ) / 2
  pc.foldl (fun filtered p =>
    let img := pointToPixel ip p.x p.y p.z
    if pointInPolygon img.1 img.2 polygon then
      let newImg := applyPerspective matrix img.1 img.2
      let newX := (newImg.1 - newPpx) * p.z / ip.fx
      let newY := (newImg.2 - newPpy) * p.z / ip.fy
      filtered ++ [⟨newX, newY, p.z⟩]
    else filtered) []

/-- Intrinsics of the rectified virtual camera (`Properties`): source
focal lengths, principal point recentered to the output center. -/
def virtualIntrinsics (ip : Intrinsics) (outputSize : Nat) : Intrinsics :=
  ⟨ip.fx, ip.fy, (outputSize : ℚ) / 2, (outputSize : ℚ) / 2⟩

theorem foldl_filter_map (f : Point3 → Point3) (q : Point3 → Bool)
    (L acc : List Point3) :
    L.foldl (fun res p => if q p then res ++ [f p] else res) acc
      = acc ++ (L.filter q).map f := by
  induction L generalizing acc with
  | nil => simp
  | cons p rest ih =>
    rw [List.foldl_cons]
    by_cases hq : q p
    · simp [hq, ih, List.filter_cons]
    · simp [hq, ih, List.filter_cons]

/-- The rectified cloud consists exactly of the transforms of the
points whose projections fall inside the board polygon, in order. -/
theorem filterAndTransform_eq (pc : List Point3) (corners : List Point2)
    (outputSize : Nat) (ip : Intrinsics) :
    filterAndTransformPointCloud pc corners outputSize ip
      = (pc.filter (fun q => pointInPolygon (pointToPixel ip q.x q.y q.z).1
          (pointToPixel ip q.x q.y q.z).2 corners)).map
          (transformPoint (boardMatrix corners outputSize) outputSize ip) := by
  have h := foldl_filter_map
    (transformPoint (boardMatrix corners outputSize) outputSize ip)
    (fun q => pointInPolygon (pointToPixel ip q.x q.y q.z).1
      (pointToPixel ip q.x q.y q.z).2 corners) pc []
  simpa using h

/-- C7. A point whose projection lies inside the board polygon appears
in the rectified cloud with its depth `Z` unchanged, and re-projecting
it through the virtual pinhole camera (source focal lengths, principal
point at the center of the output square) lands exactly on the
homography-transformed 2D position of its source projection; the cloud
retains nothing but the transforms of the points projecting inside the
polygon, so points projecting outside are discarded. -/
theorem claim_C7 (pc : List Point3) (corners : List Point2) (outputSize : Nat)
    (ip : Intrinsics) (p : Point3) (hp : p ∈ pc)
    (hfx : ip.fx ≠ 0) (hfy : ip.fy ≠ 0) (hz : p.z ≠ 0) :
    (pointInPolygon (pointToPixel ip p.x p.y p.z).1
        (pointToPixel ip p.x p.y p.z).2 corners = true →
      transformPoint (boardMatrix corners outputSize) outputSize ip p
          ∈ filterAndTransformPointCloud pc corners outputSize ip
      ∧ (transformPoint (boardMatrix corners outputSize) outputSize ip p).z = p.z
      ∧ pointToPixel (virtualIntrinsics ip outputSize)
          (transformPoint (boardMatrix corners outputSize) outputSize ip p).x
          (transformPoint (boardMatrix corners outputSize) outputSize ip p).y
          (transformPoint (boardMatrix corners outputSize) outputSize ip p).z
        = applyPerspective (boardMatrix corners outputSize)
            (pointToPixel ip p.x p.y p.z).1 (pointToPixel ip p.x p.y p.z).2)
    ∧ filterAndTransformPointCloud pc corners outputSize ip
      = (pc.filter (fun q => pointInPolygon (pointToPixel ip q.x q.y q.z).1
          (pointToPixel ip q.x q.y q.z).2 corners)).map
          (transformPoint (boardMatrix corners outputSize) outputSize ip) := by
  constructor
  · intro hin
    refine ⟨?_, rfl, ?_⟩
    · rw [filterAndTransform_eq]
      exact List.mem_map_of_mem _ (List.mem_filter.mpr ⟨hp, hin⟩)
    · rcases happly : applyPerspective (boardMatrix corners outputSize)
        (pointToPixel ip p.x p.y p.z).1 (pointToPixel ip p.x p.y p.z).2
        with ⟨t1, t2⟩
      simp only [transformPoint]
      rw [happly]
      simp only [pointToPixel, virtualIntrinsics, Prod.mk.injEq]
      constructor
      · field_simp
        ring
      · field_simp
        ring
  · exact filterAndTransform_eq pc corners outputSize ip

/-- Witness for C7: a point projecting to the center of a square board
region, with unit focal lengths and unit depth. -/
theorem claim_C7_witness :
    (pointInPolygon (pointToPixel ⟨1, 1, 2, 2⟩ 0 0 1).1
        (pointToPixel ⟨1, 1, 2, 2⟩ 0 0 1).2
        [⟨0, 0⟩, ⟨4, 0⟩, ⟨4, 4⟩, ⟨0, 4⟩] = true →
      transformPoint (boardMatrix [⟨0, 0⟩, ⟨4, 0⟩, ⟨4, 4⟩, ⟨0, 4⟩] 8) 8 ⟨1, 1, 2, 2⟩ ⟨0, 0, 1⟩
          ∈ filterAndTransformPointCloud [⟨0, 0, 1⟩] [⟨0, 0⟩, ⟨4, 0⟩, ⟨4, 4⟩, ⟨0, 4⟩] 8 ⟨1, 1, 2, 2⟩
      ∧ (transformPoint (boardMatrix [⟨0, 0⟩, ⟨4, 0⟩, ⟨4, 4⟩, ⟨0, 4⟩] 8) 8 ⟨1, 1, 2, 2⟩ ⟨0, 0, 1⟩).z
          = (⟨0, 0, 1⟩ : Point3).z
      ∧ pointToPixel (virtualIntrinsics ⟨1, 1, 2, 2⟩ 8)
          (transformPoint (boardMatrix [⟨0, 0⟩, ⟨4, 0⟩, ⟨4, 4⟩, ⟨0, 4⟩] 8) 8 ⟨1, 1, 2, 2⟩ ⟨0, 0, 1⟩).x
          (transformPoint (boardMatrix [⟨0, 0⟩, ⟨4, 0⟩, ⟨4, 4⟩, ⟨0, 4⟩] 8) 8 ⟨1, 1, 2, 2⟩ ⟨0, 0, 1⟩).y
          (transformPoint (boardMatrix [⟨0, 0⟩, ⟨4, 0⟩, ⟨4, 4⟩, ⟨0, 4⟩] 8) 8 ⟨1, 1, 2, 2⟩ ⟨0, 0, 1⟩).z
        = applyPerspective (boardMatrix [⟨0, 0⟩, ⟨4, 0⟩, ⟨4, 4⟩, ⟨0, 4⟩] 8)
            (pointToPixel ⟨1, 1, 2, 2⟩ 0 0 1).1 (pointToPixel ⟨1, 1, 2, 2⟩ 0 0 1).2)
    ∧ filterAndTransformPointCloud [⟨0, 0, 1⟩] [⟨0, 0⟩, ⟨4, 0⟩, ⟨4, 4⟩, ⟨0, 4⟩] 8 ⟨1, 1, 2, 2⟩
      = (([⟨0, 0, 1⟩] : List Point3).filter
          (fun q => pointInPolygon (pointToPixel ⟨1, 1, 2, 2⟩ q.x q.y q.z).1
            (pointToPixel ⟨1, 1, 2, 2⟩ q.x q.y q.z).2
            [⟨0, 0⟩, ⟨4, 0⟩, ⟨4, 4⟩, ⟨0, 4⟩])).map
          (transformPoint (boardMatrix [⟨0, 0⟩, ⟨4, 0⟩, ⟨4, 4⟩, ⟨0, 4⟩] 8) 8 ⟨1, 1, 2, 2⟩) :=
  claim_C7 [⟨0, 0, 1⟩] [⟨0, 0⟩, ⟨4, 0⟩, ⟨4, 4⟩, ⟨0, 4⟩] 8 ⟨1, 1, 2, 2⟩ ⟨0, 0, 1⟩
    (by decide) (by decide) (by decide) (by decide)

end ViamChess
